import Mathlib

/-!
Verification of the `whack_a_mole` camera node (`whack_a_mole/camera.py`).

The node keeps a color image, a depth image, per-color centroid histories,
a shared last-valid 3D point and a publish-enable flag.  A fixed-rate timer
runs, for every configured color: depth gating, color segmentation, cropped
centroid extraction, median smoothing and a transform broadcast.

The embedding below is a direct translation of `camera.py`.  The helper
class `OpenCVClient` (`whack_a_mole/mole_detection.py`) and the color table
(`whack_a_mole/constants.py`) are not among the given sources; the two
members of `OpenCVClient` the node calls with observable effect are
modelled from the spec and marked as such.  The cv2 color-space conversion
and `inRange` thresholding are external library calls; they are abstracted
as a per-color segmentation function from the gated image to a boolean
mask, which is exactly the data the rest of the node consumes.
-/

namespace WhackAMole

/-- A BGR color pixel: one intensity per channel. -/
abbrev Pixel := Int × Int × Int

/-- A color image: rows of pixels. -/
abbrev Image2D := List (List Pixel)

/-- A depth image: rows of depth values (0 = no return). -/
abbrev Depth2D := List (List Int)

/-- Camera intrinsics: focal lengths and principal point (from the 3×3 K matrix). -/
structure Intrinsics where
  fx : ℚ
  fy : ℚ
  cx : ℚ
  cy : ℚ

/-- The fields of a `geometry_msgs/TransformStamped` that `camera.py` fills in
(the time stamp is external real-time state and is not modelled). -/
structure TransformStamped where
  frame_id : String
  child_frame_id : String
  translation : ℚ × ℚ × ℚ
  rotation : ℚ × ℚ × ℚ × ℚ

/-- One entry of the color table from `whack_a_mole/constants.py`: a name, its
index into the per-color state arrays (`COLORS[name]`), and its segmentation
(the cv2 HSV conversion plus `inRange` over one or two OR-combined HSV ranges,
abstracted as a function from the gated image to the binary mask). -/
structure ColorCfg where
  name : String
  index : Nat
  seg : Image2D → List (List Bool)

/-- The mutable state of the `Camera` node (including the parts of its
`OpenCVClient` member that `camera.py` reads and writes). -/
structure CamState where
  colorImage : Image2D
  depthImage : Depth2D
  runningAvg : List (List (Int × Int))
  prevXYZ : ℚ × ℚ × ℚ
  updateColors : Bool
  intrinsics : Intrinsics
  clippingDistance : Int
  crop : Int × Int × Int × Int

/-- The depth gate applied to one pixel: `np.where((d > clip) | (d <= 0), 0, c)`
from `find_color_centroid`; the three stacked depth channels carry the same
depth value, so the whole pixel is zeroed or copied. -/
def gatePixel (clip d : Int) (c : Pixel) : Pixel :=
  if d > clip ∨ d ≤ 0 then (0, 0, 0) else c

/-- The depth-gated color image (`bg_removed` in `find_color_centroid`). -/
def bgRemoved (clip : Int) (depth : Depth2D) (color : Image2D) : Image2D :=
  List.zipWith (fun dr cr => List.zipWith (gatePixel clip) dr cr) depth color

/-- `np.any(mask)`: is any mask pixel on? -/
def maskAny (mask : List (List Bool)) : Bool :=
  mask.any (fun row => row.any id)

/-- The coordinates `(x, y)` of the "on" pixels of a mask that lie inside the
half-open crop rectangle `[sx, ex) × [sy, ey)`. -/
def onPixelsInRect (mask : List (List Bool)) (sx sy ex ey : Int) : List (Int × Int) :=
  mask.enum.flatMap fun yr =>
    yr.2.enum.flatMap fun xb =>
      if xb.2 = true ∧ sx ≤ (xb.1 : Int) ∧ (xb.1 : Int) < ex ∧
          sy ≤ (yr.1 : Int) ∧ (yr.1 : Int) < ey
      then [((xb.1 : Int), (yr.1 : Int))] else []

/-- Modelled from the spec: `OpenCVClient.find_centroid_cropped` is defined in
`whack_a_mole/mole_detection.py`, which is not among the given sources.
Spec §4.3: the centroid (mean pixel coordinate) of the "on" pixels of the mask
restricted to the crop rectangle, and the sentinel `(-1, -1)` when no "on"
pixel lies in the rectangle (`camera.py` converts the result with `int(...)`,
so the mean is taken here as integer division). -/
def find_centroid_cropped (mask : List (List Bool)) (sx sy ex ey : Int) : Int × Int :=
  let pts := onPixelsInRect mask sx sy ex ey
  if pts.length = 0 then (-1, -1)
  else ((pts.map Prod.fst).foldr (· + ·) 0 / (pts.length : Int),
        (pts.map Prod.snd).foldr (· + ·) 0 / (pts.length : Int))

/-- `Camera.find_color_centroid`: gate the color image by depth, segment it,
return the sentinel `(-1, -1)` if the mask is empty, otherwise take the
cropped centroid, publish the annotated gated image, and return the centroid.
The second component is the list of images published during the call (the
cv2 drawing calls annotate the published buffer in place and are not part of
the data flow modelled here). -/
def find_color_centroid (st : CamState) (seg : Image2D → List (List Bool)) :
    (Int × Int) × List Image2D :=
  let bg := bgRemoved st.clippingDistance st.depthImage st.colorImage
  let mask := seg bg
  if maskAny mask = false then ((-1, -1), [])
  else
    (find_centroid_cropped mask st.crop.1 st.crop.2.1 st.crop.2.2.1 st.crop.2.2.2, [bg])

/-- Insert into an ascending-sorted list of depths/coordinates. -/
def insertSorted (a : Int) : List Int → List Int
  | [] => [a]
  | b :: t => if a ≤ b then a :: b :: t else b :: insertSorted a t

/-- Ascending insertion sort, modelling the sort inside `np.median`. -/
def sortInt (l : List Int) : List Int :=
  l.foldr insertSorted []

/-- `np.median` over one coordinate axis: the middle element of the sorted
data for odd length, the mean of the two middle elements for even length. -/
def npMedian (l : List Int) : ℚ :=
  if l.length % 2 = 1 then ((sortInt l).getD (l.length / 2) 0 : Int)
  else (((sortInt l).getD (l.length / 2 - 1) 0 + (sortInt l).getD (l.length / 2) 0 : Int) : ℚ) / 2

/-- The C-style integer cast `np.array(..., dtype=int)` applied to a rational:
truncation toward zero. -/
def truncQ (q : ℚ) : Int :=
  if 0 ≤ q then ⌊q⌋ else ⌈q⌉

/-- Lines 164–165 of `camera.py`: the element-wise median of a centroid
history (axis 0 of the `(n, 2)` array), cast to integers. -/
def smoothedCentroid (hist : List (Int × Int)) : Int × Int :=
  (truncQ (npMedian (hist.map Prod.fst)), truncQ (npMedian (hist.map Prod.snd)))

/-- The depth value the deprojector reads at a pixel; out-of-image pixels have
no depth ("missing", treated as 0). -/
def depthAt (depth : Depth2D) (px py : Int) : Int :=
  if px < 0 ∨ py < 0 then 0
  else (depth.getD py.toNat []).getD px.toNat 0

/-- Modelled from the spec: `OpenCVClient.get_3d_coordinates_at_pixel` is
defined in `whack_a_mole/mole_detection.py`, which is not among the given
sources.  Spec §4.5: the pinhole model `Z = depth`, `X = (px - cx) * Z / fx`,
`Y = (py - cy) * Z / fy`, with an invalid sentinel (X = -1) when the pixel is
the "not found" sentinel or the depth there is zero/missing. -/
def get_3d_coordinates_at_pixel (depth : Depth2D) (K : Intrinsics) (px py : Int) :
    ℚ × ℚ × ℚ :=
  if px = -1 ∧ py = -1 then (-1, -1, -1)
  else if depthAt depth px py ≤ 0 then (-1, -1, -1)
  else (((px : ℚ) - K.cx) * (depthAt depth px py : ℚ) / K.fx,
        ((py : ℚ) - K.cy) * (depthAt depth px py : ℚ) / K.fy,
        (depthAt depth px py : ℚ))

/-- `Camera.broadcast_color_frame`: deproject the pixel, fall back to
`prev_xyz` when the X coordinate is the -1 sentinel (otherwise store the new
point in `prev_xyz`), and emit the transform with translation `(z, -x, -y)`
and identity rotation. -/
def broadcast_color_frame (st : CamState) (base_frame child_frame : String)
    (x_c y_c : Int) : CamState × TransformStamped :=
  let p := get_3d_coordinates_at_pixel st.depthImage st.intrinsics x_c y_c
  let q := if p.1 = -1 then st.prevXYZ else p
  ({ st with prevXYZ := q },
   { frame_id := base_frame
     child_frame_id := child_frame
     translation := (q.2.2, -q.1, -q.2.1)
     rotation := (0, 0, 0, 1) })

/-- `Camera.broadcast_color`: find the centroid; if both returned coordinates
are nonzero and `update_colors` is set, shift this color's history down by one
and append the new centroid; then broadcast the frame at the median of the
(possibly updated) history. -/
def broadcast_color (st : CamState) (cfg : ColorCfg) :
    CamState × List TransformStamped × List Image2D :=
  let r := find_color_centroid st cfg.seg
  let hist := st.runningAvg.getD cfg.index []
  let hist2 := if r.1.1 ≠ 0 ∧ r.1.2 ≠ 0 ∧ st.updateColors = true
               then hist.drop 1 ++ [(r.1.1, r.1.2)] else hist
  let st1 := { st with runningAvg := st.runningAvg.set cfg.index hist2 }
  let m := smoothedCentroid hist2
  let rf := broadcast_color_frame st1 "camera_depth_frame" (cfg.name ++ "_frame") m.1 m.2
  (rf.1, [rf.2], r.2)

/-- The per-color loop body of `Camera.timer_callback`, over the configured
color table (`detect_illumination` lives in the external `OpenCVClient`, does
not touch the state modelled here, and is not described by the spec). -/
def run_colors : List ColorCfg → CamState →
    CamState × List TransformStamped × List Image2D
  | [], st => (st, [], [])
  | cfg :: rest, st =>
    let r1 := broadcast_color st cfg
    let r2 := run_colors rest r1.1
    (r2.1, r1.2.1 ++ r2.2.1, r1.2.2 ++ r2.2.2)

/-- The outcome of one timer tick: the new state, the transforms sent and the
images published during the tick. -/
structure TickResult where
  state : CamState
  transforms : List TransformStamped
  images : List Image2D

/-- `Camera.timer_callback`: a no-op while either image buffer is still
zero-sized, otherwise the per-color loop. -/
def timer_callback (cfgs : List ColorCfg) (st : CamState) : TickResult :=
  if st.colorImage.length = 0 ∨ st.depthImage.length = 0 then ⟨st, [], []⟩
  else
    let r := run_colors cfgs st
    ⟨r.1, r.2.1, r.2.2⟩

/-- `Camera.toggle_tf_publish`: flip `update_colors`. -/
def toggle_tf_publish (st : CamState) : CamState :=
  { st with updateColors := !st.updateColors }

/-- `Camera.get_color_info`: a new color image replaces the buffer wholesale. -/
def get_color_info (st : CamState) (img : Image2D) : CamState :=
  { st with colorImage := img }

/-- `Camera.get_depth_info`: a new depth image replaces the buffer wholesale. -/
def get_depth_info (st : CamState) (img : Depth2D) : CamState :=
  { st with depthImage := img }

/-- Feed a sequence of (color, depth) image pairs, running one timer tick
after each pair is ingested. -/
def feed (cfgs : List ColorCfg) : List (Image2D × Depth2D) → CamState → CamState
  | [], st => st
  | p :: rest, st =>
    feed cfgs rest (timer_callback cfgs (get_depth_info (get_color_info st p.1) p.2)).state

/-! ### Concrete inputs used to exercise the claims -/

/-- A segmentation that matches no pixel (an all-background image). -/
def segEmptyC1 : Image2D → List (List Bool) :=
  fun img => img.map (fun row => row.map (fun _ => false))

/-- A color whose mask is always empty. -/
def cfgC1 : ColorCfg :=
  { name := "orange", index := 0, seg := segEmptyC1 }

/-- A camera state with images present, the flag on, and an all-zero history. -/
def stC1 : CamState :=
  { colorImage := [[(50, 50, 50)]]
    depthImage := [[100]]
    runningAvg := [[(0, 0), (0, 0), (0, 0)]]
    prevXYZ := (0, 0, 0)
    updateColors := true
    intrinsics := { fx := 1, fy := 1, cx := 0, cy := 0 }
    clippingDistance := 1400
    crop := (0, 0, 1, 1) }

/-- A segmentation whose mask has an "on" pixel at (0, 0) regardless of the image. -/
def segC3 : Image2D → List (List Bool) :=
  fun _ => [[true]]

/-- A camera state whose crop rectangle is empty, so the globally non-empty
mask has no "on" pixel inside the rectangle. -/
def stC3 : CamState :=
  { colorImage := [[(9, 9, 9)]]
    depthImage := [[5]]
    runningAvg := [[(0, 0)]]
    prevXYZ := (0, 0, 0)
    updateColors := true
    intrinsics := { fx := 1, fy := 1, cx := 0, cy := 0 }
    clippingDistance := 1400
    crop := (0, 0, 0, 0) }

/-- A camera state with a stored fallback point, used at the deprojection
sentinel. -/
def stC5 : CamState :=
  { colorImage := [[(1, 1, 1)]]
    depthImage := [[0]]
    runningAvg := [[(0, 0)]]
    prevXYZ := (7, 8, 9)
    updateColors := true
    intrinsics := { fx := 1, fy := 1, cx := 0, cy := 0 }
    clippingDistance := 1400
    crop := (0, 0, 1, 1) }

/-- A segmentation that matches every pixel. -/
def segC6 : Image2D → List (List Bool) :=
  fun img => img.map (fun row => row.map (fun _ => true))

/-- A color that always detects something, to feed detections during a freeze. -/
def cfgC6 : ColorCfg :=
  { name := "green", index := 0, seg := segC6 }

/-- A camera state with the publish-enable flag on, about to be frozen. -/
def stC6 : CamState :=
  { colorImage := [[(3, 3, 3)]]
    depthImage := [[10]]
    runningAvg := [[(4, 5), (6, 7)]]
    prevXYZ := (0, 0, 0)
    updateColors := true
    intrinsics := { fx := 1, fy := 1, cx := 0, cy := 0 }
    clippingDistance := 1400
    crop := (0, 0, 2, 2) }

/-- A camera state that has not yet received a color image. -/
def stC8 : CamState :=
  { colorImage := []
    depthImage := [[1]]
    runningAvg := [[(0, 0)]]
    prevXYZ := (0, 0, 0)
    updateColors := true
    intrinsics := { fx := 1, fy := 1, cx := 0, cy := 0 }
    clippingDistance := 1400
    crop := (0, 0, 1, 1) }

/-- A segmentation that matches no pixel, for the tick publishing count. -/
def segC9 : Image2D → List (List Bool) :=
  fun img => img.map (fun row => row.map (fun _ => false))

/-- A single configured color whose mask is empty on this tick. -/
def cfgC9 : ColorCfg :=
  { name := "yellow", index := 0, seg := segC9 }

/-- A camera state with both images present. -/
def stC9 : CamState :=
  { colorImage := [[(2, 2, 2)]]
    depthImage := [[50]]
    runningAvg := [[(0, 0)]]
    prevXYZ := (0, 0, 0)
    updateColors := true
    intrinsics := { fx := 1, fy := 1, cx := 0, cy := 0 }
    clippingDistance := 1400
    crop := (0, 0, 1, 1) }

/-- A camera state whose deprojection at pixel (0, 0) yields X = -1 with a
valid depth and meaningful Y and Z: X = (0 - cx) * Z / fx = -1. -/
def stC10 : CamState :=
  { colorImage := [[(1, 1, 1)]]
    depthImage := [[1]]
    runningAvg := [[(0, 0)]]
    prevXYZ := (4, 5, 6)
    updateColors := true
    intrinsics := { fx := 1, fy := 1, cx := 1, cy := 0 }
    clippingDistance := 1400
    crop := (0, 0, 1, 1) }

/-! ### Generic list helpers -/

theorem getD_zipWith {α β γ : Type} (f : α → β → γ) (l1 : List α) (l2 : List β)
    (i : Nat) (h1 : i < l1.length) (h2 : i < l2.length) (d1 : α) (d2 : β) (d3 : γ) :
    (List.zipWith f l1 l2).getD i d3 = f (l1.getD i d1) (l2.getD i d2) := by
  induction l1 generalizing l2 i with
  | nil => simp at h1
  | cons a t ih =>
    cases l2 with
    | nil => simp at h2
    | cons b t2 =>
      cases i with
      | zero => simp
      | succ n =>
        simp only [List.zipWith_cons_cons, List.getD_cons_succ]
        exact ih t2 n (by simpa using h1) (by simpa using h2)

theorem set_getD_self {α : Type} (l : List α) (i : Nat) (d : α) :
    l.set i (l.getD i d) = l := by
  induction l generalizing i with
  | nil => simp
  | cons a t ih =>
    cases i with
    | zero => simp
    | succ n => simp only [List.set_cons_succ, List.getD_cons_succ, ih n]

theorem getD_mem {α : Type} {l : List α} {i : Nat} (h : i < l.length) (d : α) :
    l.getD i d ∈ l := by
  induction l generalizing i with
  | nil => simp at h
  | cons a t ih =>
    cases i with
    | zero => simp
    | succ n =>
      rw [List.getD_cons_succ]
      exact List.mem_cons_of_mem a (ih (by simpa using h))

/-! ### Sorting and median facts -/

theorem mem_insertSorted {a x : Int} {l : List Int} (h : x ∈ insertSorted a l) :
    x = a ∨ x ∈ l := by
  induction l with
  | nil => simpa [insertSorted] using h
  | cons b t ih =>
    by_cases hab : a ≤ b
    · rw [insertSorted, if_pos hab] at h
      simpa using h
    · rw [insertSorted, if_neg hab] at h
      rcases List.mem_cons.mp h with h1 | h2
      · exact Or.inr (h1 ▸ List.mem_cons_self b t)
      · rcases ih h2 with h3 | h4
        · exact Or.inl h3
        · exact Or.inr (List.mem_cons_of_mem b h4)

theorem mem_sortInt {x : Int} {l : List Int} (h : x ∈ sortInt l) : x ∈ l := by
  induction l with
  | nil => exact absurd h (List.not_mem_nil x)
  | cons a t ih =>
    have h2 : x ∈ insertSorted a (sortInt t) := h
    rcases mem_insertSorted h2 with h3 | h4
    · exact h3 ▸ List.mem_cons_self a t
    · exact List.mem_cons_of_mem a (ih h4)

theorem length_insertSorted (a : Int) (l : List Int) :
    (insertSorted a l).length = l.length + 1 := by
  induction l with
  | nil => rfl
  | cons b t ih =>
    by_cases hab : a ≤ b
    · rw [insertSorted, if_pos hab]
      simp
    · rw [insertSorted, if_neg hab]
      simp [ih]

theorem length_sortInt (l : List Int) : (sortInt l).length = l.length := by
  induction l with
  | nil => rfl
  | cons a t ih =>
    have h2 : sortInt (a :: t) = insertSorted a (sortInt t) := rfl
    rw [h2, length_insertSorted, ih, List.length_cons]

theorem npMedian_le {l : List Int} (hne : l ≠ []) {hi : Int}
    (h : ∀ a ∈ l, a ≤ hi) : npMedian l ≤ (hi : ℚ) := by
  have hn : 0 < l.length := List.length_pos.mpr hne
  by_cases hodd : l.length % 2 = 1
  · rw [npMedian, if_pos hodd]
    have hmem : (sortInt l).getD (l.length / 2) 0 ∈ l :=
      mem_sortInt (getD_mem (by rw [length_sortInt]; omega) 0)
    exact_mod_cast h _ hmem
  · rw [npMedian, if_neg hodd]
    have h2 : 2 ≤ l.length := by omega
    have hmem1 : (sortInt l).getD (l.length / 2 - 1) 0 ∈ l :=
      mem_sortInt (getD_mem (by rw [length_sortInt]; omega) 0)
    have hmem2 : (sortInt l).getD (l.length / 2) 0 ∈ l :=
      mem_sortInt (getD_mem (by rw [length_sortInt]; omega) 0)
    have hb1 := h _ hmem1
    have hb2 := h _ hmem2
    have hc1 : ((sortInt l).getD (l.length / 2 - 1) 0 : ℚ) ≤ (hi : ℚ) := by exact_mod_cast hb1
    have hc2 : ((sortInt l).getD (l.length / 2) 0 : ℚ) ≤ (hi : ℚ) := by exact_mod_cast hb2
    push_cast
    linarith

theorem le_npMedian {l : List Int} (hne : l ≠ []) {lo : Int}
    (h : ∀ a ∈ l, lo ≤ a) : (lo : ℚ) ≤ npMedian l := by
  have hn : 0 < l.length := List.length_pos.mpr hne
  by_cases hodd : l.length % 2 = 1
  · rw [npMedian, if_pos hodd]
    have hmem : (sortInt l).getD (l.length / 2) 0 ∈ l :=
      mem_sortInt (getD_mem (by rw [length_sortInt]; omega) 0)
    exact_mod_cast h _ hmem
  · rw [npMedian, if_neg hodd]
    have h2 : 2 ≤ l.length := by omega
    have hmem1 : (sortInt l).getD (l.length / 2 - 1) 0 ∈ l :=
      mem_sortInt (getD_mem (by rw [length_sortInt]; omega) 0)
    have hmem2 : (sortInt l).getD (l.length / 2) 0 ∈ l :=
      mem_sortInt (getD_mem (by rw [length_sortInt]; omega) 0)
    have hc1 : (lo : ℚ) ≤ ((sortInt l).getD (l.length / 2 - 1) 0 : ℚ) := by
      exact_mod_cast h _ hmem1
    have hc2 : (lo : ℚ) ≤ ((sortInt l).getD (l.length / 2) 0 : ℚ) := by
      exact_mod_cast h _ hmem2
    push_cast
    linarith

theorem truncQ_le {q : ℚ} {hi : Int} (h : q ≤ (hi : ℚ)) : truncQ q ≤ hi := by
  rw [truncQ]
  split
  · calc ⌊q⌋ ≤ ⌊(hi : ℚ)⌋ := Int.floor_le_floor h
      _ = hi := Int.floor_intCast hi
  · exact Int.ceil_le.mpr h

theorem le_truncQ {q : ℚ} {lo : Int} (h : (lo : ℚ) ≤ q) : lo ≤ truncQ q := by
  rw [truncQ]
  split
  · exact Int.le_floor.mpr h
  · calc lo = ⌈(lo : ℚ)⌉ := (Int.ceil_intCast lo).symm
      _ ≤ ⌈q⌉ := Int.ceil_le_ceil h

/-! ### Invariants of the per-color broadcast step -/

theorem broadcast_color_colorImage (st : CamState) (cfg : ColorCfg) :
    (broadcast_color st cfg).1.colorImage = st.colorImage := rfl

theorem broadcast_color_depthImage (st : CamState) (cfg : ColorCfg) :
    (broadcast_color st cfg).1.depthImage = st.depthImage := rfl

theorem broadcast_color_updateColors (st : CamState) (cfg : ColorCfg) :
    (broadcast_color st cfg).1.updateColors = st.updateColors := rfl

theorem broadcast_color_clippingDistance (st : CamState) (cfg : ColorCfg) :
    (broadcast_color st cfg).1.clippingDistance = st.clippingDistance := rfl

theorem broadcast_color_frozen (st : CamState) (cfg : ColorCfg)
    (h : st.updateColors = false) :
    (broadcast_color st cfg).1.runningAvg = st.runningAvg := by
  simp [broadcast_color, broadcast_color_frame, h]
  rw [← List.getD_eq_getElem?_getD, set_getD_self]

theorem run_colors_frozen (cfgs : List ColorCfg) (st : CamState)
    (h : st.updateColors = false) :
    (run_colors cfgs st).1.runningAvg = st.runningAvg ∧
    (run_colors cfgs st).1.updateColors = false ∧
    (run_colors cfgs st).2.1.length = cfgs.length := by
  induction cfgs generalizing st with
  | nil => exact ⟨rfl, h, rfl⟩
  | cons cfg rest ih =>
    have hu : (broadcast_color st cfg).1.updateColors = false := by
      rw [broadcast_color_updateColors]; exact h
    obtain ⟨h1, h2, h3⟩ := ih (broadcast_color st cfg).1 hu
    refine ⟨?_, h2, ?_⟩
    · have he : (run_colors (cfg :: rest) st).1 =
          (run_colors rest (broadcast_color st cfg).1).1 := rfl
      rw [he, h1, broadcast_color_frozen st cfg h]
    · have he : (run_colors (cfg :: rest) st).2.1 =
          (broadcast_color st cfg).2.1 ++ (run_colors rest (broadcast_color st cfg).1).2.1 := rfl
      rw [he, List.length_append, h3]
      have hone : (broadcast_color st cfg).2.1.length = 1 := rfl
      rw [hone, List.length_cons]
      omega

theorem timer_callback_frozen (cfgs : List ColorCfg) (st : CamState)
    (h : st.updateColors = false) :
    (timer_callback cfgs st).state.runningAvg = st.runningAvg ∧
    (timer_callback cfgs st).state.updateColors = false := by
  rw [timer_callback]
  split
  · exact ⟨rfl, h⟩
  · exact ⟨(run_colors_frozen cfgs st h).1, (run_colors_frozen cfgs st h).2.1⟩

theorem feed_frozen (cfgs : List ColorCfg) (inputs : List (Image2D × Depth2D))
    (st : CamState) (h : st.updateColors = false) :
    (feed cfgs inputs st).runningAvg = st.runningAvg ∧
    (feed cfgs inputs st).updateColors = false := by
  induction inputs generalizing st with
  | nil => exact ⟨rfl, h⟩
  | cons p rest ih =>
    have hset : (get_depth_info (get_color_info st p.1) p.2).updateColors = false := h
    have ht := timer_callback_frozen cfgs (get_depth_info (get_color_info st p.1) p.2) hset
    obtain ⟨ih1, ih2⟩ :=
      ih (timer_callback cfgs (get_depth_info (get_color_info st p.1) p.2)).state ht.2
    refine ⟨?_, ih2⟩
    have he : feed cfgs (p :: rest) st =
        feed cfgs rest (timer_callback cfgs (get_depth_info (get_color_info st p.1) p.2)).state :=
      rfl
    rw [he, ih1, ht.1]
    rfl

/-! ### The claims -/

/-- C1 (code bug): on a tick whose mask is empty, `find_color_centroid`
returns the "not found" sentinel `(-1, -1)`; the guard in `broadcast_color`
(`x_c != 0 and y_c != 0`) does not filter the sentinel out, so with the
publish-enable flag true the history is shifted and `(-1, -1)` is appended —
the spec requires the history to be left unchanged in this case. -/
theorem claim_C1_sentinel_shifts_history :
    (find_color_centroid stC1 cfgC1.seg).1 = (-1, -1) ∧
    stC1.updateColors = true ∧
    (broadcast_color stC1 cfgC1).1.runningAvg = [[(0, 0), (0, 0), (-1, -1)]] := by
  exact ⟨by decide, rfl, by decide⟩

/-- C2: every pixel of the depth-gated image is zeroed exactly when its depth
is above the clipping distance or not positive, and is otherwise copied
unchanged from the color image. -/
theorem claim_C2_depth_gate (clip : Int) (D : Depth2D) (C : Image2D) (i j : Nat)
    (hjD : j < D.length) (hjC : j < C.length)
    (hiD : i < (D.getD j []).length) (hiC : i < (C.getD j []).length) :
    ((bgRemoved clip D C).getD j []).getD i (0, 0, 0) =
      (if (D.getD j []).getD i 0 > clip ∨ (D.getD j []).getD i 0 ≤ 0
       then ((0 : Int), (0 : Int), (0 : Int))
       else (C.getD j []).getD i (0, 0, 0)) := by
  rw [bgRemoved, getD_zipWith _ D C j hjD hjC [] [] [],
    getD_zipWith _ _ _ i hiD hiC 0 (0, 0, 0) (0, 0, 0)]
  rfl

/-- C2 witness: at depth 20 with clipping distance 10 the pixel is zeroed. -/
theorem claim_C2_depth_gate_witness :
    ((bgRemoved 10 [[5, 20]] [[(1, 2, 3), (4, 5, 6)]]).getD 0 []).getD 1 (0, 0, 0) =
      (0, 0, 0) := by
  have h := claim_C2_depth_gate 10 [[5, 20]] [[(1, 2, 3), (4, 5, 6)]] 1 0
    (by decide) (by decide) (by decide) (by decide)
  simpa using h

/-- C3: the centroid extraction of `find_color_centroid` returns the sentinel
`(-1, -1)` whenever no "on" pixel of the mask lies inside the crop rectangle —
also when the mask is non-empty outside the rectangle. -/
theorem claim_C3_empty_roi_sentinel (st : CamState) (seg : Image2D → List (List Bool))
    (h : onPixelsInRect (seg (bgRemoved st.clippingDistance st.depthImage st.colorImage))
      st.crop.1 st.crop.2.1 st.crop.2.2.1 st.crop.2.2.2 = []) :
    (find_color_centroid st seg).1 = (-1, -1) := by
  rw [find_color_centroid]
  split
  · rfl
  · rw [find_centroid_cropped, h]
    rfl

/-- C3 witness: a mask that is globally non-empty while the crop rectangle is
empty still produces the sentinel. -/
theorem claim_C3_empty_roi_sentinel_witness :
    maskAny (segC3 (bgRemoved stC3.clippingDistance stC3.depthImage stC3.colorImage)) = true ∧
    (find_color_centroid stC3 segC3).1 = (-1, -1) :=
  ⟨by decide, claim_C3_empty_roi_sentinel stC3 segC3 (by decide)⟩

/-- C4 counterexample: with the two-sample history `[(1, 0), (2, 0)]` the
median of the x coordinates is 3/2, but the emitted smoothed x coordinate is
the integer cast 1, so the emitted centroid does not equal the element-wise
median. -/
theorem claim_C4_counterexample :
    npMedian [1, 2] = 3 / 2 ∧
    smoothedCentroid [(1, 0), (2, 0)] = (1, 0) ∧
    ((smoothedCentroid [(1, 0), (2, 0)]).1 : ℚ) ≠ npMedian [1, 2] := by
  have hm : npMedian [1, 2] = 3 / 2 := by
    rw [npMedian]
    norm_num [sortInt, insertSorted]
  have hm0 : npMedian [0, 0] = 0 := by
    rw [npMedian]
    norm_num [sortInt, insertSorted]
  have hf : (⌊(3 / 2 : ℚ)⌋ : Int) = 1 := by
    rw [Int.floor_eq_iff]
    norm_num
  have ht : truncQ (3 / 2 : ℚ) = 1 := by
    rw [truncQ, if_pos (by norm_num), hf]
  have ht0 : truncQ (0 : ℚ) = 0 := by
    rw [truncQ, if_pos le_rfl]
    exact Int.floor_zero
  have hsc : smoothedCentroid [(1, 0), (2, 0)] = (1, 0) := by
    simp only [smoothedCentroid, List.map_cons, List.map_nil, hm, hm0, ht, ht0]
  refine ⟨hm, hsc, ?_⟩
  rw [hsc, hm]
  norm_num

/-- C4 (amended): the emitted smoothed centroid equals the element-wise median
of the current history truncated toward zero by the integer cast (not the
median itself, which can be a half-integer for even history lengths), and each
smoothed coordinate lies within the min/max bounds of the corresponding
coordinate over the history. -/
theorem claim_C4_median_trunc_bounds (hist : List (Int × Int)) (hne : hist ≠ [])
    (lo1 hi1 lo2 hi2 : Int)
    (h1 : ∀ p ∈ hist, lo1 ≤ p.1) (h2 : ∀ p ∈ hist, p.1 ≤ hi1)
    (h3 : ∀ p ∈ hist, lo2 ≤ p.2) (h4 : ∀ p ∈ hist, p.2 ≤ hi2) :
    smoothedCentroid hist =
      (truncQ (npMedian (hist.map Prod.fst)), truncQ (npMedian (hist.map Prod.snd))) ∧
    lo1 ≤ (smoothedCentroid hist).1 ∧ (smoothedCentroid hist).1 ≤ hi1 ∧
    lo2 ≤ (smoothedCentroid hist).2 ∧ (smoothedCentroid hist).2 ≤ hi2 := by
  have hX : hist.map Prod.fst ≠ [] := by
    simpa using hne
  have hY : hist.map Prod.snd ≠ [] := by
    simpa using hne
  have bX1 : ∀ a ∈ hist.map Prod.fst, lo1 ≤ a := by
    intro a ha
    rcases List.mem_map.mp ha with ⟨p, hp, rfl⟩
    exact h1 p hp
  have bX2 : ∀ a ∈ hist.map Prod.fst, a ≤ hi1 := by
    intro a ha
    rcases List.mem_map.mp ha with ⟨p, hp, rfl⟩
    exact h2 p hp
  have bY1 : ∀ a ∈ hist.map Prod.snd, lo2 ≤ a := by
    intro a ha
    rcases List.mem_map.mp ha with ⟨p, hp, rfl⟩
    exact h3 p hp
  have bY2 : ∀ a ∈ hist.map Prod.snd, a ≤ hi2 := by
    intro a ha
    rcases List.mem_map.mp ha with ⟨p, hp, rfl⟩
    exact h4 p hp
  exact ⟨rfl,
    le_truncQ (le_npMedian hX bX1),
    truncQ_le (npMedian_le hX bX2),
    le_truncQ (le_npMedian hY bY1),
    truncQ_le (npMedian_le hY bY2)⟩

/-- C4 witness: a concrete three-sample history with its coordinate bounds. -/
theorem claim_C4_median_trunc_bounds_witness :
    (1 : Int) ≤ (smoothedCentroid [(1, 2), (3, 4), (5, 6)]).1 ∧
    (smoothedCentroid [(1, 2), (3, 4), (5, 6)]).1 ≤ 5 ∧
    (2 : Int) ≤ (smoothedCentroid [(1, 2), (3, 4), (5, 6)]).2 ∧
    (smoothedCentroid [(1, 2), (3, 4), (5, 6)]).2 ≤ 6 := by
  have h := claim_C4_median_trunc_bounds [(1, 2), (3, 4), (5, 6)] (by decide) 1 5 2 6
    (by decide) (by decide) (by decide) (by decide)
  exact ⟨h.2.1, h.2.2.1, h.2.2.2.1, h.2.2.2.2⟩

/-- C5: when deprojection returns the X = -1 sentinel, the broadcast reuses the
stored fallback point and leaves the whole state (in particular the fallback)
unchanged; otherwise the fallback — a single field shared by every color — is
overwritten with the new point and the new point is broadcast. -/
theorem claim_C5_shared_fallback (st : CamState) (base child : String) (x_c y_c : Int) :
    ((get_3d_coordinates_at_pixel st.depthImage st.intrinsics x_c y_c).1 = -1 →
      (broadcast_color_frame st base child x_c y_c).1 = st ∧
      (broadcast_color_frame st base child x_c y_c).2.translation =
        (st.prevXYZ.2.2, -st.prevXYZ.1, -st.prevXYZ.2.1)) ∧
    ((get_3d_coordinates_at_pixel st.depthImage st.intrinsics x_c y_c).1 ≠ -1 →
      (broadcast_color_frame st base child x_c y_c).1.prevXYZ =
        get_3d_coordinates_at_pixel st.depthImage st.intrinsics x_c y_c ∧
      (broadcast_color_frame st base child x_c y_c).2.translation =
        ((get_3d_coordinates_at_pixel st.depthImage st.intrinsics x_c y_c).2.2,
         -(get_3d_coordinates_at_pixel st.depthImage st.intrinsics x_c y_c).1,
         -(get_3d_coordinates_at_pixel st.depthImage st.intrinsics x_c y_c).2.1)) := by
  constructor
  · intro h
    constructor
    · simp [broadcast_color_frame, h]
    · simp [broadcast_color_frame, h]
  · intro h
    constructor
    · simp [broadcast_color_frame, h]
    · simp [broadcast_color_frame, h]

/-- C5 witness: at the pixel sentinel the deprojection is invalid, the state is
unchanged and the stored fallback is what gets broadcast. -/
theorem claim_C5_shared_fallback_witness :
    (get_3d_coordinates_at_pixel stC5.depthImage stC5.intrinsics (-1) (-1)).1 = -1 ∧
    (broadcast_color_frame stC5 "camera_depth_frame" "green_frame" (-1) (-1)).1 = stC5 ∧
    (broadcast_color_frame stC5 "camera_depth_frame" "green_frame" (-1) (-1)).2.translation =
      (stC5.prevXYZ.2.2, -stC5.prevXYZ.1, -stC5.prevXYZ.2.1) := by
  have hs : (get_3d_coordinates_at_pixel stC5.depthImage stC5.intrinsics (-1) (-1)).1 = -1 := by
    rw [get_3d_coordinates_at_pixel, if_pos ⟨rfl, rfl⟩]
  have h := (claim_C5_shared_fallback stC5 "camera_depth_frame" "green_frame" (-1) (-1)).1 hs
  exact ⟨hs, h.1, h.2⟩

/-- C6: toggling the flag off freezes every centroid history — any number of
subsequent image feeds leaves the histories exactly unchanged, so toggling
back on restores the pre-freeze state — while every tick during the freeze
with images present still broadcasts one frame per configured color. -/
theorem claim_C6_freeze (cfgs : List ColorCfg) (inputs : List (Image2D × Depth2D))
    (st : CamState) (h : st.updateColors = true) :
    (feed cfgs inputs (toggle_tf_publish st)).runningAvg = st.runningAvg ∧
    (toggle_tf_publish (feed cfgs inputs (toggle_tf_publish st))).updateColors = true ∧
    (∀ st2 : CamState, st2.updateColors = false → ¬st2.colorImage.length = 0 →
      ¬st2.depthImage.length = 0 →
      (timer_callback cfgs st2).transforms.length = cfgs.length) := by
  have htog : (toggle_tf_publish st).updateColors = false := by
    simp [toggle_tf_publish, h]
  obtain ⟨h1, h2⟩ := feed_frozen cfgs inputs (toggle_tf_publish st) htog
  refine ⟨by rw [h1]; rfl, ?_, ?_⟩
  · have he2 : (toggle_tf_publish (feed cfgs inputs (toggle_tf_publish st))).updateColors =
        !(feed cfgs inputs (toggle_tf_publish st)).updateColors := rfl
    rw [he2, h2]
    rfl
  · intro st2 hu hc hd
    unfold timer_callback
    rw [if_neg (by simp [hc, hd])]
    exact (run_colors_frozen cfgs st2 hu).2.2

/-- C6 witness: one frozen tick over a single always-detecting color leaves
the history unchanged. -/
theorem claim_C6_freeze_witness :
    stC6.updateColors = true ∧
    (feed [cfgC6] [([[(3, 3, 3)]], [[10]])] (toggle_tf_publish stC6)).runningAvg =
      stC6.runningAvg :=
  ⟨rfl, (claim_C6_freeze [cfgC6] [([[(3, 3, 3)]], [[10]])] stC6 rfl).1⟩

/-- C7: each per-color broadcast emits exactly one transform, from the fixed
base frame `camera_depth_frame` to the frame `<color>_frame`, with identity
rotation and translation `(Z, -X, -Y)` of the camera-optical point used for
this color (which the post-tick state stores as `prev_xyz`). -/
theorem claim_C7_transform_shape (st : CamState) (cfg : ColorCfg) :
    (broadcast_color st cfg).2.1 =
      [{ frame_id := "camera_depth_frame"
         child_frame_id := cfg.name ++ "_frame"
         translation := ((broadcast_color st cfg).1.prevXYZ.2.2,
                         -(broadcast_color st cfg).1.prevXYZ.1,
                         -(broadcast_color st cfg).1.prevXYZ.2.1)
         rotation := (0, 0, 0, 1) }] := rfl

/-- C8: while either image buffer is still zero-sized, a timer tick is a
complete no-op: the state is unchanged and nothing is broadcast or
published. -/
theorem claim_C8_not_ready_noop (cfgs : List ColorCfg) (st : CamState)
    (h : st.colorImage.length = 0 ∨ st.depthImage.length = 0) :
    timer_callback cfgs st = ⟨st, [], []⟩ := by
  unfold timer_callback
  rw [if_pos h]

/-- C8 witness: a state with no color image yet makes the tick a no-op. -/
theorem claim_C8_not_ready_noop_witness :
    timer_callback [] stC8 = ⟨stC8, [], []⟩ :=
  claim_C8_not_ready_noop [] stC8 (Or.inl rfl)

/-- Per-color publishing count: the images published by the per-color loop are
one per color whose mask is non-empty. -/
theorem run_colors_images_count (cfgs : List ColorCfg) (st : CamState) :
    (run_colors cfgs st).2.2.length =
      (cfgs.filter (fun c =>
        maskAny (c.seg (bgRemoved st.clippingDistance st.depthImage st.colorImage)))).length := by
  induction cfgs generalizing st with
  | nil => rfl
  | cons cfg rest ih =>
    have he : (run_colors (cfg :: rest) st).2.2 =
        (broadcast_color st cfg).2.2 ++ (run_colors rest (broadcast_color st cfg).1).2.2 := rfl
    have hpres : bgRemoved (broadcast_color st cfg).1.clippingDistance
        (broadcast_color st cfg).1.depthImage (broadcast_color st cfg).1.colorImage =
        bgRemoved st.clippingDistance st.depthImage st.colorImage := rfl
    rw [he, List.length_append, ih (broadcast_color st cfg).1, hpres]
    by_cases hm : maskAny (cfg.seg (bgRemoved st.clippingDistance st.depthImage st.colorImage)) = true
    · have himg : (broadcast_color st cfg).2.2.length = 1 := by
        show (find_color_centroid st cfg.seg).2.length = 1
        simp only [find_color_centroid]
        rw [if_neg (by simp [hm])]
        rfl
      rw [himg, List.filter_cons, if_pos hm, List.length_cons]
      omega
    · have himg : (broadcast_color st cfg).2.2.length = 0 := by
        show (find_color_centroid st cfg.seg).2.length = 0
        simp only [find_color_centroid]
        rw [if_pos (by simpa using hm)]
        rfl
      rw [himg, List.filter_cons, if_neg hm]
      omega

/-- C9 counterexample: with one configured color whose mask is empty on a tick
with both images present, the tick publishes no filtered image at all — not
exactly one per tick. -/
theorem claim_C9_counterexample :
    (timer_callback [cfgC9] stC9).images.length = 0 ∧
    (timer_callback [cfgC9] stC9).images.length ≠ 1 :=
  ⟨by decide, by decide⟩

/-- C9 (amended): on a tick with both images present, the annotated filtered
image is published once per configured color whose mask is non-empty on that
tick — a color with an empty mask publishes nothing, so the per-tick count
ranges from zero to the number of configured colors. -/
theorem claim_C9_image_per_nonempty_mask (cfgs : List ColorCfg) (st : CamState)
    (hc : ¬st.colorImage.length = 0) (hd : ¬st.depthImage.length = 0) :
    (timer_callback cfgs st).images.length =
      (cfgs.filter (fun c =>
        maskAny (c.seg (bgRemoved st.clippingDistance st.depthImage st.colorImage)))).length := by
  unfold timer_callback
  rw [if_neg (by simp [hc, hd])]
  exact run_colors_images_count cfgs st

/-- C9 witness: the amended count at a concrete tick. -/
theorem claim_C9_image_per_nonempty_mask_witness :
    (timer_callback [cfgC9] stC9).images.length =
      ([cfgC9].filter (fun c =>
        maskAny (c.seg (bgRemoved stC9.clippingDistance stC9.depthImage stC9.colorImage)))).length :=
  claim_C9_image_per_nonempty_mask [cfgC9] stC9 (by decide) (by decide)

/-- C10: the validity test applied to a deprojected point inspects only its X
coordinate: the stored fallback is reused and left unmodified exactly when the
returned X equals -1, and any returned point whose X differs from -1
overwrites the fallback whatever its Y and Z are. -/
theorem claim_C10_x_only_validity (st : CamState) (base child : String) (x_c y_c : Int) :
    ((get_3d_coordinates_at_pixel st.depthImage st.intrinsics x_c y_c).1 = -1 →
      (broadcast_color_frame st base child x_c y_c).1.prevXYZ = st.prevXYZ) ∧
    ((get_3d_coordinates_at_pixel st.depthImage st.intrinsics x_c y_c).1 ≠ -1 →
      (broadcast_color_frame st base child x_c y_c).1.prevXYZ =
        get_3d_coordinates_at_pixel st.depthImage st.intrinsics x_c y_c) := by
  constructor
  · intro h
    simp [broadcast_color_frame, h]
  · intro h
    simp [broadcast_color_frame, h]

/-- C10 witness: a point whose computed X is -1 while its depth is valid and
its Y and Z are meaningful (0 and 1) is still treated as invalid, leaving the
fallback untouched. -/
theorem claim_C10_x_only_validity_witness :
    get_3d_coordinates_at_pixel stC10.depthImage stC10.intrinsics 0 0 = (-1, 0, 1) ∧
    (broadcast_color_frame stC10 "camera_depth_frame" "red_frame" 0 0).1.prevXYZ =
      stC10.prevXYZ := by
  have hp : get_3d_coordinates_at_pixel stC10.depthImage stC10.intrinsics 0 0 = (-1, 0, 1) := by
    simp only [get_3d_coordinates_at_pixel]
    rw [if_neg (by simp), if_neg (by decide)]
    norm_num [stC10, depthAt]
  exact ⟨hp,
    (claim_C10_x_only_validity stC10 "camera_depth_frame" "red_frame" 0 0).1 (by rw [hp])⟩

end WhackAMole
